import Mathlib

/-!
Verification of the SovFi solana oracle program (src/solana-oracle.rs).

The Rust source is shallowly embedded: every machine-integer value is
modelled as `Nat` (for `u8`/`u64`/`u128`) or `Int` (for `i64`/`i128`);
checked arithmetic (`checked_sub`) becomes an explicit comparison guard
returning an error, saturating arithmetic (`saturating_mul`,
`saturating_add`) becomes an explicit `min` against the maximum of the type,
and the `as u64` / `as i64` narrowing casts that can actually wrap are
modelled with an explicit `% 2 ^ 64` (resp. a conditional subtraction of
`2 ^ 64`).  Fallible instructions return `Except ErrorCode`.  An `Err`
return aborts the whole transaction in the Anchor runtime, so an error
result carries no mutated state.
-/

namespace SovFi

/-! ## Constants (src/solana-oracle.rs lines 10-17) -/

def MAX_PUBLISHERS : Nat := 100
def MIN_STAKE_AMOUNT : Nat := 10000000000
def STALENESS_THRESHOLD : Int := 30
def HALTED_THRESHOLD : Int := 60
def OUTLIER_MAD_MULTIPLIER : Nat := 3
def EMA_ALPHA_SCALED : Int := 100000
def UNBONDING_PERIOD : Int := 604800

/-- Largest value of the Rust `i64` type. -/
def I64_MAX : Nat := 9223372036854775807

/-- Largest value of the Rust `u64` type. -/
def U64_MAX : Nat := 18446744073709551615

/-- The Rust cast `u64 as i64` (twos-complement reinterpretation). -/
def u64AsI64 (n : Nat) : Int :=
  if n < 2 ^ 63 then (n : Int) else (n : Int) - 2 ^ 64

/-! ## Error codes (src/solana-oracle.rs lines 23-67) -/

inductive ErrorCode where
  | PriceNotTrading
  | PriceStale
  | InsufficientStake
  | UnauthorizedPublisher
  | InsufficientPublishers
  | InvalidPrice
  | InvalidTimestamp
  | ConfidenceTooLarge
  | Overflow
  | PublisherExists
  | Unauthorized
  | ProposalNotApproved
  | UnbondingPeriodActive
  | SystemPaused
  | InvalidSlashPercentage
  | VotingPeriodEnded
  | QuorumNotReached
  | TimelockNotExpired
  | PublishersArrayFull
  | InvalidProposalType
  | VotingPeriodActive
deriving DecidableEq, Repr

/-! ## Data structures of the price aggregator -/

inductive PriceStatus where
  | Trading
  | Halted
  | Auction
  | Unknown
deriving DecidableEq, Repr

/-- The submission slot of one publisher (struct `PublisherPrice`).  The
`publisher : Pubkey` field is an opaque identity never inspected by the
aggregation arithmetic and is omitted. -/
structure PublisherPrice where
  price : Int
  confidence : Nat
  timestamp : Int
  slot : Nat
  stake : Nat
  active : Bool
deriving DecidableEq, Repr

def PublisherPrice.dflt : PublisherPrice :=
  { price := 0, confidence := 0, timestamp := 0, slot := 0, stake := 0, active := false }

/-- Struct `PriceData`: the current aggregate of a feed. -/
structure PriceData where
  price : Int
  confidence : Nat
  exponent : Int
  timestamp : Int
  slot : Nat
  status : PriceStatus
deriving DecidableEq, Repr

/-- Struct `EmaData`. -/
structure EmaData where
  ema_price : Int
  ema_confidence : Nat
  num_observations : Nat
deriving DecidableEq, Repr

/-- Struct `PriceAccount` (the fields read or written by aggregation;
pubkeys and the bump are omitted as they never enter the arithmetic). -/
structure PriceAccount where
  aggregate : PriceData
  publishers : List PublisherPrice
  publisher_count : Nat
  min_publishers : Nat
  last_update_slot : Nat
  ema : EmaData
  exponent : Int
deriving DecidableEq, Repr

/-! ## Aggregation pipeline (src/solana-oracle.rs lines 834-996) -/

/-- `valid_prices.sort_by_key(|p| p.price)` : ascending sort by price.
The Rust sort is a stable merge sort; it is modelled by insertion sort,
which likewise produces a price-ascending permutation.  Every quantity
the pipeline later derives from the sorted list (median price value,
deviation multiset, cumulative-stake crossing price, sums, maxima) is
invariant under the choice among price-sorted permutations, because
entries tied on price are interchangeable for all of them. -/
def sortByPrice (l : List PublisherPrice) : List PublisherPrice :=
  l.insertionSort (fun a b => a.price ≤ b.price)

/-- The median price the MAD filter works with: the element at index
`len / 2` of the price-sorted list (lines 901-902). -/
def medianPriceOf (prices : List PublisherPrice) : Int :=
  (prices.getD (prices.length / 2) PublisherPrice.dflt).price

/-- The median absolute deviation: deviations `|price - median|` are
sorted and the element at index `len / 2` is taken (lines 905-911). -/
def madOf (prices : List PublisherPrice) : Nat :=
  let median := medianPriceOf prices
  let deviations := (prices.map (fun p => (p.price - median).natAbs)).insertionSort (· ≤ ·)
  deviations.getD (deviations.length / 2) 0

/-- `mad.saturating_mul(OUTLIER_MAD_MULTIPLIER)` on `i64`, for the
nonnegative `mad` (line 912). -/
def madThreshold (mad : Nat) : Nat :=
  min (mad * OUTLIER_MAD_MULTIPLIER) I64_MAX

/-- `filter_outliers_optimized` (lines 896-919). -/
def filter_outliers_optimized (prices : List PublisherPrice) : List PublisherPrice :=
  if prices.length < 3 then prices
  else
    let median := medianPriceOf prices
    let threshold := madThreshold (madOf prices)
    prices.filter (fun p => (p.price - median).natAbs ≤ threshold)

/-- Total stake of a slice, summed in `u128` (never overflows for at most
`MAX_PUBLISHERS` u64 summands, so plain `Nat` addition is exact). -/
def totalStakeOf (prices : List PublisherPrice) : Nat :=
  (prices.map (fun p => p.stake)).sum

/-- The accumulation loop of `calculate_stake_weighted_median_optimized`
(lines 925-931): the price of the first entry whose cumulative stake
reaches `threshold`, starting from accumulator `cum`. -/
def firstCumReaching (threshold : Nat) : Nat → List PublisherPrice → Option Int
  | _, [] => none
  | cum, p :: rest =>
    if threshold ≤ cum + p.stake then some p.price
    else firstCumReaching threshold (cum + p.stake) rest

/-- `calculate_stake_weighted_median_optimized` (lines 921-934):
`median_stake = total_stake / 2` (flooring `u128` division), then the
first entry whose cumulative stake reaches it; the fall-through
`prices[0].price` is kept for the (unreachable on nonempty input) case
the loop ends. -/
def calculate_stake_weighted_median_optimized (prices : List PublisherPrice) : Int :=
  let total_stake := totalStakeOf prices
  let median_stake := total_stake / 2
  match firstCumReaching median_stake 0 prices with
  | some v => v
  | none => (prices.getD 0 PublisherPrice.dflt).price

/-- `calculate_confidence_safe` (lines 936-954).  Per entry the source
computes `(diff_squared * stake) / total_stake` — the flooring division
happens inside each summand.  The final `(variance as f64).sqrt() as u64`
is modelled by `Nat.sqrt`, the floor integer square root, which is what
the `f64` round trip computes for the magnitudes at play. -/
def calculate_confidence_safe (prices : List PublisherPrice) (median : Int) : Nat :=
  let total_stake := totalStakeOf prices
  if total_stake = 0 then 1
  else
    let variance := (prices.map (fun p =>
      let diff := (p.price - median).natAbs
      diff * diff * p.stake / total_stake)).sum
    max (Nat.sqrt variance) 1

/-- The description the spec gives of the confidence — sqrt of the
stake-weighted mean of squared deviations, with the division outside
the sum — written from the words of the spec for comparison with
`calculate_confidence_safe`. -/
def specConfidenceRms (prices : List PublisherPrice) (median : Int) : Nat :=
  let total_stake := totalStakeOf prices
  if total_stake = 0 then 1
  else
    let weighted_sum := (prices.map (fun p =>
      let diff := (p.price - median).natAbs
      p.stake * (diff * diff))).sum
    max (Nat.sqrt (weighted_sum / total_stake)) 1

/-- `determine_status_optimized` (lines 956-972). -/
def determine_status_optimized (prices : List PublisherPrice) (min_publishers : Nat)
    (current_time : Int) : PriceStatus :=
  if prices.length < min_publishers then PriceStatus.Unknown
  else
    match (prices.map (fun p => p.timestamp)).max? with
    | some latest =>
      if current_time - latest > HALTED_THRESHOLD then PriceStatus.Halted
      else PriceStatus.Trading
    | none => PriceStatus.Trading

/-- `update_ema` (lines 974-996).  The `i128` division of the Rust `/`
operator truncates toward zero, hence `Int.tdiv`; the `u64`
`saturating_add(1)` of the observation counter is an explicit `min`. -/
def update_ema (current_ema : EmaData) (new_price : Int) (new_confidence : Nat) : EmaData :=
  if current_ema.num_observations = 0 then
    { ema_price := new_price, ema_confidence := new_confidence, num_observations := 1 }
  else
    let one_minus_alpha : Int := 1000000 - EMA_ALPHA_SCALED
    { ema_price :=
        Int.tdiv (EMA_ALPHA_SCALED * new_price + one_minus_alpha * current_ema.ema_price) 1000000
      ema_confidence :=
        (EMA_ALPHA_SCALED.toNat * new_confidence
          + one_minus_alpha.toNat * current_ema.ema_confidence) / 1000000
      num_observations := min (current_ema.num_observations + 1) U64_MAX }

/-- The fresh (active, non-stale) submissions collected at lines 839-843. -/
def validPricesOf (pa : PriceAccount) (current_time : Int) : List PublisherPrice :=
  pa.publishers.filter (fun p => p.active && decide (current_time - p.timestamp < STALENESS_THRESHOLD))

/-- `aggregate_prices_internal` (lines 834-894), minus the event emission,
with the clock passed explicitly. -/
def aggregate_prices_internal (pa : PriceAccount) (current_time : Int) (slot : Nat) :
    PriceAccount :=
  let valid_prices := validPricesOf pa current_time
  if valid_prices.isEmpty then
    { pa with aggregate := { pa.aggregate with status := PriceStatus.Unknown } }
  else
    let sorted := sortByPrice valid_prices
    let filtered_prices := filter_outliers_optimized sorted
    if filtered_prices.length < pa.min_publishers then
      { pa with aggregate := { pa.aggregate with status := PriceStatus.Unknown } }
    else
      let median_price := calculate_stake_weighted_median_optimized filtered_prices
      let confidence := calculate_confidence_safe filtered_prices median_price
      let status := determine_status_optimized sorted pa.min_publishers current_time
      { pa with
        aggregate :=
          { price := median_price, confidence := confidence, exponent := pa.exponent
            timestamp := current_time, slot := slot, status := status }
        ema := update_ema pa.ema median_price confidence }

/-! ## Stake ledger (src/solana-oracle.rs lines 404-596, 765-787) -/

/-- Struct `PublisherAccount` (the arithmetic fields; pubkeys, name and
bump omitted). -/
structure PublisherAccount where
  staked_amount : Nat
  reputation : Nat
  slash_count : Nat
  last_slash_slot : Nat
  unbonding_amount : Nat
  unbonding_start : Int
deriving DecidableEq, Repr

/-- `unstake_tokens` (lines 539-556), acting on the publisher account:
`checked_sub` guard, minimum-stake floor, then the pending unbonding
amount and clock are overwritten and the active balance lowered.  The
vault field `total_staked` is not touched by this instruction. -/
def unstake_tokens (p : PublisherAccount) (amount : Nat) (now : Int) :
    Except ErrorCode PublisherAccount :=
  if p.staked_amount < amount then .error .InsufficientStake
  else
    let remaining := p.staked_amount - amount
    if remaining < MIN_STAKE_AMOUNT then .error .InsufficientStake
    else .ok { p with unbonding_amount := amount, unbonding_start := now
                      staked_amount := remaining }

/-- `withdraw_unbonded` (lines 558-596), acting on the publisher account
and the vault total (the SPL token transfer is external custody movement
and carries no core state). -/
def withdraw_unbonded (p : PublisherAccount) (total_staked : Nat) (now : Int) :
    Except ErrorCode (PublisherAccount × Nat) :=
  if now - p.unbonding_start < UNBONDING_PERIOD then .error .UnbondingPeriodActive
  else
    let amount := p.unbonding_amount
    if amount = 0 then .error .InsufficientStake
    else if total_staked < amount then .error .Overflow
    else .ok ({ p with unbonding_amount := 0, unbonding_start := 0 }, total_staked - amount)

/-- The `SlashPublisher` branch of `execute_governance_action`
(lines 765-787): `(staked_amount as u128 * percentage as u128) / 100`
narrowed back with `as u64` (the `% 2 ^ 64`), two `checked_sub` guards,
and the slash bookkeeping. -/
def slash_publisher (p : PublisherAccount) (total_staked : Nat) (percentage : Nat)
    (slot : Nat) : Except ErrorCode (PublisherAccount × Nat) :=
  let slash_amount := p.staked_amount * percentage / 100 % 2 ^ 64
  if p.staked_amount < slash_amount then .error .Overflow
  else if total_staked < slash_amount then .error .Overflow
  else .ok ({ p with staked_amount := p.staked_amount - slash_amount
                     slash_count := p.slash_count + 1, last_slash_slot := slot },
            total_staked - slash_amount)

/-- The ledger-wide state the vault invariant speaks about: all publisher
accounts and the vault field `total_staked`.  Publisher accounts are
addressed by their position in the list, standing in for the keyed
account store. -/
structure LedgerState where
  publishers : List PublisherAccount
  total_staked : Nat
deriving DecidableEq, Repr

/-- `add_publisher` (lines 404-449): minimum-stake gate, fresh account
with reputation 100 and empty unbonding state, vault total increased. -/
def add_publisher (s : LedgerState) (initial_stake : Nat) : Except ErrorCode LedgerState :=
  if initial_stake < MIN_STAKE_AMOUNT then .error .InsufficientStake
  else .ok
    { publishers := s.publishers ++
        [{ staked_amount := initial_stake, reputation := 100, slash_count := 0
           last_slash_slot := 0, unbonding_amount := 0, unbonding_start := 0 }]
      total_staked := s.total_staked + initial_stake }

/-- `stake_tokens` (lines 517-537): positive amount, both the publisher
balance and the vault total increase. -/
def stake_tokens (s : LedgerState) (i : Nat) (amount : Nat) : Except ErrorCode LedgerState :=
  if amount = 0 then .error .InsufficientStake
  else
    match s.publishers.get? i with
    | none => .error .Unauthorized
    | some p => .ok
      { publishers := s.publishers.set i { p with staked_amount := p.staked_amount + amount }
        total_staked := s.total_staked + amount }

/-- `unstake_tokens` lifted to the ledger. -/
def unstake_step (s : LedgerState) (i : Nat) (amount : Nat) (now : Int) :
    Except ErrorCode LedgerState :=
  match s.publishers.get? i with
  | none => .error .Unauthorized
  | some p =>
    match unstake_tokens p amount now with
    | .ok p2 => .ok { s with publishers := s.publishers.set i p2 }
    | .error e => .error e

/-- `withdraw_unbonded` lifted to the ledger. -/
def withdraw_step (s : LedgerState) (i : Nat) (now : Int) : Except ErrorCode LedgerState :=
  match s.publishers.get? i with
  | none => .error .Unauthorized
  | some p =>
    match withdraw_unbonded p s.total_staked now with
    | .ok (p2, t2) => .ok { publishers := s.publishers.set i p2, total_staked := t2 }
    | .error e => .error e

/-- Governance slashing lifted to the ledger. -/
def slash_step (s : LedgerState) (i : Nat) (percentage : Nat) (slot : Nat) :
    Except ErrorCode LedgerState :=
  match s.publishers.get? i with
  | none => .error .Unauthorized
  | some p =>
    match slash_publisher p s.total_staked percentage slot with
    | .ok (p2, t2) => .ok { publishers := s.publishers.set i p2, total_staked := t2 }
    | .error e => .error e

/-- States reachable from the freshly initialized vault
(`total_staked = 0`, no publishers) by the public stake-moving
operations. -/
inductive Reachable : LedgerState → Prop where
  | init : Reachable { publishers := [], total_staked := 0 }
  | add {s s' : LedgerState} {stake : Nat} :
      Reachable s → add_publisher s stake = .ok s' → Reachable s'
  | stake {s s' : LedgerState} {i amount : Nat} :
      Reachable s → stake_tokens s i amount = .ok s' → Reachable s'
  | unstake {s s' : LedgerState} {i amount : Nat} {now : Int} :
      Reachable s → unstake_step s i amount now = .ok s' → Reachable s'
  | withdraw {s s' : LedgerState} {i : Nat} {now : Int} :
      Reachable s → withdraw_step s i now = .ok s' → Reachable s'
  | slash {s s' : LedgerState} {i pct slot : Nat} :
      Reachable s → slash_step s i pct slot = .ok s' → Reachable s'

/-- Reachability restricted to runs that never call `unstake_tokens` on a
publisher that still has a nonzero pending unbonding amount (such a call
overwrites — and so orphans — the pending amount, line 551). -/
inductive ReachableD : LedgerState → Prop where
  | init : ReachableD { publishers := [], total_staked := 0 }
  | add {s s' : LedgerState} {stake : Nat} :
      ReachableD s → add_publisher s stake = .ok s' → ReachableD s'
  | stake {s s' : LedgerState} {i amount : Nat} :
      ReachableD s → stake_tokens s i amount = .ok s' → ReachableD s'
  | unstake {s s' : LedgerState} {i amount : Nat} {now : Int} :
      ReachableD s →
      (∀ p, s.publishers.get? i = some p → p.unbonding_amount = 0) →
      unstake_step s i amount now = .ok s' → ReachableD s'
  | withdraw {s s' : LedgerState} {i : Nat} {now : Int} :
      ReachableD s → withdraw_step s i now = .ok s' → ReachableD s'
  | slash {s s' : LedgerState} {i pct slot : Nat} :
      ReachableD s → slash_step s i pct slot = .ok s' → ReachableD s'

/-- Sum of the active staked amounts over all publishers. -/
def sumStaked (s : LedgerState) : Nat :=
  (s.publishers.map (fun p => p.staked_amount)).sum

/-- Sum over all publishers of the active staked amount plus pending
unbonding amounts. -/
def sumStakedUnbonding (s : LedgerState) : Nat :=
  (s.publishers.map (fun p => p.staked_amount + p.unbonding_amount)).sum

/-! ## Governance engine (src/solana-oracle.rs lines 616-791) -/

/-- Enum `ProposalType`.  The `Pubkey` payloads of `UpdateMinPublishers`
and `SlashPublisher` are ignored by the execution code (matched as `_`)
and omitted. -/
inductive ProposalType where
  | UpdateRewardRate (new_rate : Nat)
  | UpdateMinPublishers (new_min : Nat)
  | SlashPublisher (percentage : Nat)
  | EmergencyPause
  | EmergencyUnpause
  | UpdateGovernanceParams (proposal_threshold : Option Nat) (voting_period : Option Nat)
      (quorum_percentage : Option Nat) (timelock_duration : Option Nat)
deriving DecidableEq, Repr

/-- Struct `Proposal` (arithmetic fields). -/
structure Proposal where
  proposal_type : ProposalType
  yes_votes : Nat
  no_votes : Nat
  abstain_votes : Nat
  start_slot : Nat
  end_slot : Nat
  executed : Bool
  execution_time : Int
deriving DecidableEq, Repr

/-- Struct `GovernanceState` (arithmetic fields). -/
structure GovernanceState where
  proposal_threshold : Nat
  voting_period : Nat
  quorum_percentage : Nat
  timelock_duration : Nat
  proposal_count : Nat
  total_supply : Nat
deriving DecidableEq, Repr

/-- `execute_proposal` (lines 678-714), with the clock passed explicitly.
The quorum product is computed in `u128` (exact in `Nat`); the timelock
duration is a `u64` cast to `i64` before being added to the clock. -/
def execute_proposal (prop : Proposal) (gov : GovernanceState) (now : Int) (slot : Nat) :
    Except ErrorCode Proposal :=
  if ¬ prop.end_slot < slot then .error .VotingPeriodActive
  else if prop.executed then .error .ProposalNotApproved
  else
    let total_votes := prop.yes_votes + prop.no_votes + prop.abstain_votes
    let quorum := gov.total_supply * gov.quorum_percentage / 100
    if total_votes < quorum then .error .QuorumNotReached
    else if ¬ prop.no_votes < prop.yes_votes then .error .ProposalNotApproved
    else if prop.execution_time = 0 then
      .ok { prop with execution_time := now + u64AsI64 gov.timelock_duration }
    else if now < prop.execution_time then .error .TimelockNotExpired
    else .ok { prop with executed := true }

/-- The mutable state touched by `execute_governance_action`
(lines 716-791): the global pause flag, the vault, the governance
parameters, the optional target feed (its `min_publishers`) and the
optional target publisher.  The `Proposal` account itself is taken by
the instruction as a read-only (non-`mut`) account and therefore cannot
be part of the mutated state. -/
structure ActionState where
  paused : Bool
  reward_rate : Nat
  total_staked : Nat
  gov : GovernanceState
  feed_min_publishers : Option Nat
  publisher_account : Option PublisherAccount
deriving DecidableEq, Repr

/-- `execute_governance_action` (lines 716-791), with the clock slot
passed explicitly.  Its only `require!` is `proposal.executed`; each
target-entity branch is a no-op when the optional account is absent. -/
def execute_governance_action (prop : Proposal) (s : ActionState) (slot : Nat) :
    Except ErrorCode ActionState :=
  if ¬ prop.executed then .error .ProposalNotApproved
  else
    match prop.proposal_type with
    | .UpdateRewardRate new_rate => .ok { s with reward_rate := new_rate }
    | .UpdateMinPublishers new_min =>
      match s.feed_min_publishers with
      | some _ => .ok { s with feed_min_publishers := some new_min }
      | none => .ok s
    | .EmergencyPause => .ok { s with paused := true }
    | .EmergencyUnpause => .ok { s with paused := false }
    | .UpdateGovernanceParams th vp qp tl =>
      .ok { s with gov :=
        { s.gov with
          proposal_threshold := th.getD s.gov.proposal_threshold
          voting_period := vp.getD s.gov.voting_period
          quorum_percentage := qp.getD s.gov.quorum_percentage
          timelock_duration := tl.getD s.gov.timelock_duration } }
    | .SlashPublisher percentage =>
      match s.publisher_account with
      | some p =>
        match slash_publisher p s.total_staked percentage slot with
        | .ok (p2, t2) => .ok { s with publisher_account := some p2, total_staked := t2 }
        | .error e => .error e
      | none => .ok s

/-! ## Helper lemmas -/

theorem firstCumReaching_mem {th : Nat} :
    ∀ {cum : Nat} {l : List PublisherPrice} {v : Int},
      firstCumReaching th cum l = some v → ∃ p ∈ l, v = p.price := by
  intro cum l
  induction l generalizing cum with
  | nil => intro v h; simp [firstCumReaching] at h
  | cons p rest ih =>
    intro v h
    rw [firstCumReaching] at h
    by_cases hc : th ≤ cum + p.stake
    · rw [if_pos hc] at h
      exact ⟨p, List.mem_cons_self p rest, (Option.some.inj h).symm⟩
    · rw [if_neg hc] at h
      obtain ⟨q, hq, hv⟩ := ih h
      exact ⟨q, List.mem_cons_of_mem p hq, hv⟩

theorem firstCumReaching_isSome {th : Nat} :
    ∀ {cum : Nat} {l : List PublisherPrice}, l ≠ [] →
      th ≤ cum + totalStakeOf l → (firstCumReaching th cum l).isSome := by
  intro cum l
  induction l generalizing cum with
  | nil => intro h; exact absurd rfl h
  | cons p rest ih =>
    intro _ hth
    rw [firstCumReaching]
    by_cases hc : th ≤ cum + p.stake
    · rw [if_pos hc]; rfl
    · rw [if_neg hc]
      rcases rest with _ | ⟨q, rest2⟩
      · exfalso
        have he : totalStakeOf [p] = p.stake := by simp [totalStakeOf]
        omega
      · refine ih (by simp) ?_
        have he : totalStakeOf (p :: q :: rest2) = p.stake + totalStakeOf (q :: rest2) := by
          simp [totalStakeOf]
        omega

theorem filter_outliers_length_le (l : List PublisherPrice) :
    (filter_outliers_optimized l).length ≤ l.length := by
  unfold filter_outliers_optimized
  split
  · exact le_rfl
  · exact List.length_filter_le _ _

/-! ## Claim C1 — stake-weighted median -/

/-- The two-entry surviving set on which the ceiling reading of the
spec (first cumulative stake reaching the ceiling of half the total)
and the flooring `total_stake / 2` of the code disagree: stakes 2 and
3, total 5. -/
def swmCex : List PublisherPrice :=
  [{ price := 10, confidence := 1, timestamp := 0, slot := 0, stake := 2, active := true },
   { price := 20, confidence := 1, timestamp := 0, slot := 0, stake := 3, active := true }]

/-- Claim C1, counterexample: the code returns the price of the first
entry whose cumulative stake reaches the FLOOR of `total_stake / 2`
(here `5 / 2 = 2`, reached by the first entry, price 10); the first
entry whose cumulative stake reaches the ceiling `⌈5 / 2⌉ = 3` is the
second one, price 20.  So the claimed characterisation picks a different
entry than the code. -/
theorem C1_ceiling_counterexample :
    calculate_stake_weighted_median_optimized swmCex = 10 ∧
    firstCumReaching ((totalStakeOf swmCex + 1) / 2) 0 swmCex = some 20 ∧
    (10 : Int) ≠ 20 := by
  refine ⟨by decide, by decide, by decide⟩

/-- Claim C1 (amended): for every non-empty surviving set, the consensus
price is the price of the first entry whose cumulative stake-snapshot
reaches the FLOOR `total_stake / 2` (the accumulation loop always
terminates at such an entry); when total stake is zero it is the first
price of the first entry; and in every case the result is the price of some entry
of the set, never an interpolated value. -/
theorem C1_stake_weighted_median (prices : List PublisherPrice) (hne : prices ≠ []) :
    firstCumReaching (totalStakeOf prices / 2) 0 prices
      = some (calculate_stake_weighted_median_optimized prices) ∧
    (totalStakeOf prices = 0 →
      calculate_stake_weighted_median_optimized prices
        = (prices.getD 0 PublisherPrice.dflt).price) ∧
    ∃ p ∈ prices, calculate_stake_weighted_median_optimized prices = p.price := by
  have hsome : (firstCumReaching (totalStakeOf prices / 2) 0 prices).isSome :=
    firstCumReaching_isSome hne (by omega)
  obtain ⟨v, hv⟩ := Option.isSome_iff_exists.mp hsome
  have hcalc : calculate_stake_weighted_median_optimized prices = v := by
    simp only [calculate_stake_weighted_median_optimized, hv]
  refine ⟨by rw [hv, hcalc], ?_, ?_⟩
  · intro hz
    have hth0 : totalStakeOf prices / 2 = 0 := by rw [hz]
    rcases prices with _ | ⟨p, rest⟩
    · exact absurd rfl hne
    · rw [hth0, firstCumReaching, if_pos (Nat.zero_le _)] at hv
      have hpv : p.price = v := Option.some.inj hv
      rw [hcalc, List.getD_cons_zero, hpv]
  · obtain ⟨p, hp, hpe⟩ := firstCumReaching_mem hv
    exact ⟨p, hp, hcalc.trans hpe⟩

/-- Witness for C1 at the concrete two-entry set. -/
theorem C1_stake_weighted_median_witness :
    firstCumReaching (totalStakeOf swmCex / 2) 0 swmCex
      = some (calculate_stake_weighted_median_optimized swmCex) :=
  (C1_stake_weighted_median swmCex (by decide)).1

/-! ## Claim C5 — MAD outlier filter -/

/-- Claim C5: the MAD outlier filter rejects nothing when the fresh set
has fewer than 3 entries; for size at least 3 an entry survives iff its
absolute deviation from the median price of the set is at most
`MAD.saturating_mul(3)`. -/
theorem C5_mad_filter (prices : List PublisherPrice) :
    (prices.length < 3 → filter_outliers_optimized prices = prices) ∧
    (3 ≤ prices.length → ∀ p,
      p ∈ filter_outliers_optimized prices ↔
        p ∈ prices ∧ (p.price - medianPriceOf prices).natAbs ≤ madThreshold (madOf prices)) := by
  constructor
  · intro h
    unfold filter_outliers_optimized
    rw [if_pos h]
  · intro h p
    have hlt : ¬ prices.length < 3 := by omega
    unfold filter_outliers_optimized
    rw [if_neg hlt]
    simp [List.mem_filter]

/-- Witness for C5: a two-entry set passes through untouched, and on a
concrete three-entry set the membership criterion evaluates. -/
theorem C5_mad_filter_witness :
    filter_outliers_optimized [PublisherPrice.dflt, PublisherPrice.dflt]
      = [PublisherPrice.dflt, PublisherPrice.dflt] ∧
    (PublisherPrice.dflt ∈ filter_outliers_optimized
        [PublisherPrice.dflt, PublisherPrice.dflt, PublisherPrice.dflt] ↔
      PublisherPrice.dflt ∈ [PublisherPrice.dflt, PublisherPrice.dflt, PublisherPrice.dflt] ∧
      ((PublisherPrice.dflt).price
          - medianPriceOf [PublisherPrice.dflt, PublisherPrice.dflt, PublisherPrice.dflt]).natAbs
        ≤ madThreshold (madOf [PublisherPrice.dflt, PublisherPrice.dflt, PublisherPrice.dflt])) :=
  ⟨(C5_mad_filter [PublisherPrice.dflt, PublisherPrice.dflt]).1 (by decide),
   (C5_mad_filter [PublisherPrice.dflt, PublisherPrice.dflt, PublisherPrice.dflt]).2
     (by decide) PublisherPrice.dflt⟩

/-! ## Claim C6 — confidence -/

/-- A surviving set (the MAD filter keeps all three entries) on which
the per-summand flooring division of the code and the single division of the spec
outside the sum differ: deviations 0, 2, 5 with stakes 5, 1, 1. -/
def confCex : List PublisherPrice :=
  [{ price := 0, confidence := 1, timestamp := 0, slot := 0, stake := 5, active := true },
   { price := 2, confidence := 1, timestamp := 0, slot := 0, stake := 1, active := true },
   { price := 5, confidence := 1, timestamp := 0, slot := 0, stake := 1, active := true }]

/-- Claim C6, counterexample: on `confCex` (which survives the outlier
filter in full and has consensus price 0) the confidence of the code is
`max 1 (sqrt (0 + ⌊4/7⌋ + ⌊25/7⌋)) = sqrt 3 = 1`, while the claimed
`sqrt(Σ stake·diff² / Σ stake) = sqrt ⌊29/7⌋ = sqrt 4 = 2`. -/
theorem C6_rms_counterexample :
    filter_outliers_optimized confCex = confCex ∧
    calculate_stake_weighted_median_optimized confCex = 0 ∧
    calculate_confidence_safe confCex 0 = 1 ∧
    specConfidenceRms confCex 0 = 2 := by
  have h3 : Nat.sqrt 3 = 1 := (Nat.eq_sqrt.mpr (by norm_num)).symm
  have h4 : Nat.sqrt 4 = 2 := (Nat.eq_sqrt.mpr (by norm_num)).symm
  refine ⟨by decide, by decide, ?_, ?_⟩
  · simp [calculate_confidence_safe, confCex, totalStakeOf, h3]
  · simp [specConfidenceRms, confCex, totalStakeOf, h4]

/-- Claim C6 (amended): the reported confidence is never 0 — it is 1
when total stake is zero, and otherwise
`max 1 (sqrt (Σ ⌊diff_i² · stake_i / total_stake⌋))`: the flooring
division by the total stake is applied to each summand separately
(not once to the full weighted sum as the formula of the spec reads). -/
theorem C6_confidence_floor (prices : List PublisherPrice) (median : Int) :
    1 ≤ calculate_confidence_safe prices median ∧
    (totalStakeOf prices = 0 → calculate_confidence_safe prices median = 1) ∧
    (totalStakeOf prices ≠ 0 →
      calculate_confidence_safe prices median
        = max (Nat.sqrt ((prices.map (fun p =>
            (p.price - median).natAbs * (p.price - median).natAbs * p.stake
              / totalStakeOf prices)).sum)) 1) := by
  refine ⟨?_, ?_, ?_⟩
  · simp only [calculate_confidence_safe]
    split
    · exact le_rfl
    · exact Nat.le_max_right _ 1
  · intro h
    simp only [calculate_confidence_safe]
    rw [if_pos h]
  · intro h
    simp only [calculate_confidence_safe]
    rw [if_neg h]

/-- Witness for C6 at the concrete surviving set `confCex`. -/
theorem C6_confidence_floor_witness :
    1 ≤ calculate_confidence_safe confCex 0 ∧
    calculate_confidence_safe confCex 0
      = max (Nat.sqrt ((confCex.map (fun p =>
          (p.price - 0).natAbs * (p.price - 0).natAbs * p.stake
            / totalStakeOf confCex)).sum)) 1 :=
  ⟨(C6_confidence_floor confCex 0).1, (C6_confidence_floor confCex 0).2.2 (by decide)⟩

/-! ## Claim C7 — EMA update -/

/-- Claim C7: the first observation initializes the EMA exactly to the
new price and confidence with observation count 1; every later update
blends as `(100000·value + 900000·old) / 1000000` (integer division,
applied independently to price and confidence), and the observation
count increments with saturation at the `u64` maximum. -/
theorem C7_update_ema_rule (ema : EmaData) (p : Int) (c : Nat) :
    (ema.num_observations = 0 →
      update_ema ema p c
        = { ema_price := p, ema_confidence := c, num_observations := 1 }) ∧
    (ema.num_observations ≠ 0 →
      (update_ema ema p c).ema_price
          = Int.tdiv (100000 * p + 900000 * ema.ema_price) 1000000 ∧
      (update_ema ema p c).ema_confidence
          = (100000 * c + 900000 * ema.ema_confidence) / 1000000 ∧
      (update_ema ema p c).num_observations
          = min (ema.num_observations + 1) U64_MAX) := by
  constructor
  · intro h
    unfold update_ema
    rw [if_pos h]
  · intro h
    have h1 : ((100000 : Int)).toNat = 100000 := rfl
    have h2 : ((1000000 - 100000 : Int)).toNat = 900000 := rfl
    simp only [update_ema, EMA_ALPHA_SCALED]
    rw [if_neg h]
    refine ⟨by norm_num, ?_, rfl⟩
    simp only [h1, h2]

/-- Witness for C7: first and later observations at concrete values. -/
theorem C7_update_ema_rule_witness :
    update_ema { ema_price := 0, ema_confidence := 0, num_observations := 0 } 5 7
      = { ema_price := 5, ema_confidence := 7, num_observations := 1 } ∧
    (update_ema { ema_price := 10, ema_confidence := 20, num_observations := 3 } 30 40).ema_price
      = Int.tdiv (100000 * 30 + 900000 * 10) 1000000 :=
  ⟨(C7_update_ema_rule _ 5 7).1 rfl,
   ((C7_update_ema_rule { ema_price := 10, ema_confidence := 20, num_observations := 3 } 30 40).2
     (by decide)).1⟩

/-! ## Claim C8 — withdraw_unbonded gates -/

/-- Claim C8: `withdraw_unbonded` fails with the unbonding-period error
whenever `now - unbonding_start < 604800`, passes the time gate at
exactly 604800, succeeds on a non-zero pending amount (zeroing the
pending state and decrementing the vault total by the pending amount),
fails with `Overflow` instead of wrapping when the vault total is too
small, and fails on a zero pending amount. -/
theorem C8_withdraw_unbonded_gates (p : PublisherAccount) (total : Nat) (now : Int) :
    (now - p.unbonding_start < 604800 →
      withdraw_unbonded p total now = .error .UnbondingPeriodActive) ∧
    (now - p.unbonding_start = 604800 →
      withdraw_unbonded p total now ≠ .error .UnbondingPeriodActive) ∧
    (604800 ≤ now - p.unbonding_start → 0 < p.unbonding_amount →
      p.unbonding_amount ≤ total →
      withdraw_unbonded p total now
        = .ok ({ p with unbonding_amount := 0, unbonding_start := 0 },
               total - p.unbonding_amount)) ∧
    (604800 ≤ now - p.unbonding_start → p.unbonding_amount = 0 →
      withdraw_unbonded p total now = .error .InsufficientStake) ∧
    (604800 ≤ now - p.unbonding_start → 0 < p.unbonding_amount →
      total < p.unbonding_amount →
      withdraw_unbonded p total now = .error .Overflow) := by
  refine ⟨?_, ?_, ?_, ?_, ?_⟩
  · intro h
    simp only [withdraw_unbonded, UNBONDING_PERIOD]
    rw [if_pos h]
  · intro h
    simp only [withdraw_unbonded, UNBONDING_PERIOD]
    rw [if_neg (by omega)]
    split
    · simp
    · split <;> simp
  · intro ht ha hta
    simp only [withdraw_unbonded, UNBONDING_PERIOD]
    rw [if_neg (by omega), if_neg (by omega), if_neg (by omega)]
  · intro ht ha
    simp only [withdraw_unbonded, UNBONDING_PERIOD]
    rw [if_neg (by omega), if_pos ha]
  · intro ht ha htot
    simp only [withdraw_unbonded, UNBONDING_PERIOD]
    rw [if_neg (by omega), if_neg (by omega), if_pos htot]

/-- Witness for C8: a publisher with pending amount 5 at, before, and
exactly on the 604800-second boundary. -/
theorem C8_withdraw_unbonded_gates_witness :
    withdraw_unbonded
        { staked_amount := 100, reputation := 100, slash_count := 0, last_slash_slot := 0
          unbonding_amount := 5, unbonding_start := 0 } 100 604799
      = .error .UnbondingPeriodActive ∧
    withdraw_unbonded
        { staked_amount := 100, reputation := 100, slash_count := 0, last_slash_slot := 0
          unbonding_amount := 5, unbonding_start := 0 } 100 604800
      = .ok ({ staked_amount := 100, reputation := 100, slash_count := 0, last_slash_slot := 0
               unbonding_amount := 0, unbonding_start := 0 }, 95) :=
  ⟨(C8_withdraw_unbonded_gates _ 100 604799).1 (by decide),
   (C8_withdraw_unbonded_gates _ 100 604800).2.2.1 (by decide) (by decide) (by decide)⟩

/-! ## Claim C4 — below-min_publishers frame -/

/-- Claim C4: whenever the set of fresh entries surviving the outlier
filter is smaller than `min_publishers` (in particular when there are no
fresh entries at all), aggregation only flips the aggregate status to
`Unknown`: the prior aggregate price, confidence, exponent, timestamp,
slot and the whole EMA state are untouched. -/
theorem C4_below_min_frame (pa : PriceAccount) (t : Int) (slot : Nat)
    (h : (filter_outliers_optimized (sortByPrice (validPricesOf pa t))).length
          < pa.min_publishers) :
    aggregate_prices_internal pa t slot
      = { pa with aggregate := { pa.aggregate with status := PriceStatus.Unknown } } := by
  simp only [aggregate_prices_internal]
  split <;> rfl

/-- A feed with no fresh submissions but `min_publishers = 1`, used to
witness C4. -/
def belowMinFeed : PriceAccount :=
  { aggregate :=
      { price := 42, confidence := 7, exponent := -8, timestamp := 5, slot := 3
        status := PriceStatus.Trading }
    publishers := [{ price := 42, confidence := 7, timestamp := 0, slot := 1, stake := 9
                     active := true }]
    publisher_count := 1, min_publishers := 1, last_update_slot := 3
    ema := { ema_price := 40, ema_confidence := 6, num_observations := 2 }, exponent := -8 }

/-- Witness for C4: at time 1000 the only submission (timestamp 0) is
stale, zero entries survive, and the aggregate keeps everything but its
status. -/
theorem C4_below_min_frame_witness :
    aggregate_prices_internal belowMinFeed 1000 9
      = { belowMinFeed with
          aggregate := { belowMinFeed.aggregate with status := PriceStatus.Unknown } } :=
  C4_below_min_frame belowMinFeed 1000 9 (by decide)

/-! ## Claim C9 — Halted unreachable from aggregation -/

theorem determine_status_trading (l : List PublisherPrice) (minp : Nat) (t : Int)
    (hlen : ¬ l.length < minp)
    (hfresh : ∀ p ∈ l, t - p.timestamp < STALENESS_THRESHOLD) :
    determine_status_optimized l minp t = PriceStatus.Trading := by
  simp only [determine_status_optimized]
  rw [if_neg hlen]
  cases hmax : (l.map (fun p => p.timestamp)).max? with
  | none => simp only [hmax]
  | some latest =>
    have hmem : latest ∈ l.map (fun p => p.timestamp) :=
      List.max?_mem (fun a b => max_choice a b) hmax
    obtain ⟨p, hp, hpe⟩ := List.mem_map.mp hmem
    have hf : t - latest < 30 := by
      rw [← hpe]
      simpa [STALENESS_THRESHOLD] using hfresh p hp
    simp only [hmax]
    rw [if_neg (by simp only [HALTED_THRESHOLD]; omega)]

/-- Claim C9: whenever aggregation proceeds past the `min_publishers`
check and writes a new aggregate, the written status is `Trading` and
never `Halted`: the staleness filter only admits submissions younger
than 30 time-units, so the 60-unit Halted condition over the fresh set
cannot hold. -/
theorem C9_status_always_trading (pa : PriceAccount) (t : Int) (slot : Nat)
    (hne : (validPricesOf pa t).isEmpty = false)
    (hmin : pa.min_publishers
        ≤ (filter_outliers_optimized (sortByPrice (validPricesOf pa t))).length) :
    (aggregate_prices_internal pa t slot).aggregate.status = PriceStatus.Trading := by
  simp only [aggregate_prices_internal]
  rw [if_neg (by simp [hne]), if_neg (by omega)]
  show determine_status_optimized (sortByPrice (validPricesOf pa t)) pa.min_publishers t
      = PriceStatus.Trading
  apply determine_status_trading
  · have hle := filter_outliers_length_le (sortByPrice (validPricesOf pa t))
    omega
  · intro p hp
    have hpv : p ∈ validPricesOf pa t := by
      simpa [sortByPrice, List.mem_insertionSort] using hp
    have hprop := (List.mem_filter.mp hpv).2
    simp only [Bool.and_eq_true, decide_eq_true_eq] at hprop
    exact hprop.2

/-- A feed with one fresh submission and `min_publishers = 1`, used to
witness C9. -/
def freshFeed : PriceAccount :=
  { aggregate :=
      { price := 0, confidence := 0, exponent := 0, timestamp := 0, slot := 0
        status := PriceStatus.Unknown }
    publishers := [{ price := 100, confidence := 2, timestamp := 95, slot := 1, stake := 5
                     active := true }]
    publisher_count := 1, min_publishers := 1, last_update_slot := 1
    ema := { ema_price := 0, ema_confidence := 0, num_observations := 0 }, exponent := 0 }

/-- Witness for C9 at time 100 (the submission is 5 time-units old). -/
theorem C9_status_always_trading_witness :
    (aggregate_prices_internal freshFeed 100 2).aggregate.status = PriceStatus.Trading :=
  C9_status_always_trading freshFeed 100 2 (by decide) (by decide)

/-! ## Claim C3 — two-phase timelocked execution -/

/-- When the window/executed/quorum/majority gates all pass,
`execute_proposal` reduces to the two-phase timelock dispatch. -/
theorem execute_proposal_gates_pass (q : Proposal) (gov : GovernanceState)
    (now : Int) (slot : Nat)
    (hs : q.end_slot < slot) (he : q.executed = false)
    (hq : gov.total_supply * gov.quorum_percentage / 100
        ≤ q.yes_votes + q.no_votes + q.abstain_votes)
    (hy : q.no_votes < q.yes_votes) :
    execute_proposal q gov now slot
      = if q.execution_time = 0 then
          .ok { q with execution_time := now + u64AsI64 gov.timelock_duration }
        else if now < q.execution_time then .error .TimelockNotExpired
        else .ok { q with executed := true } := by
  simp only [execute_proposal, he]
  rw [if_neg (not_not_intro hs), if_neg (by simp), if_neg (by omega),
    if_neg (not_not_intro hy)]

/-- Claim C3: for a proposal past its voting window that meets quorum
and has strictly more yes than no votes, the first `execute_proposal`
call only arms the timelock (`execution_time := now + timelock_duration`)
and succeeds without marking the proposal executed; a later call
strictly before `execution_time` fails with `TimelockNotExpired`
(mutating nothing, as the erroring transaction aborts); a call at or
after `execution_time` marks it executed; and once `executed` is set no
`execute_proposal` call can ever succeed again — so `executed` is set
exactly once.  (Hypotheses `0 < now0` and `timelock_duration < 2^63`
keep the armed time nonzero and the u64-to-i64 cast of the timelock
value-preserving.) -/
theorem C3_two_phase_timelock (prop : Proposal) (gov : GovernanceState)
    (now0 : Int) (slot0 : Nat)
    (hslot : prop.end_slot < slot0)
    (hexec : prop.executed = false)
    (hquorum : gov.total_supply * gov.quorum_percentage / 100
        ≤ prop.yes_votes + prop.no_votes + prop.abstain_votes)
    (hyes : prop.no_votes < prop.yes_votes)
    (harm : prop.execution_time = 0)
    (hnow : 0 < now0)
    (htl : gov.timelock_duration < 2 ^ 63) :
    execute_proposal prop gov now0 slot0
      = .ok { prop with execution_time := now0 + (gov.timelock_duration : Int) } ∧
    ({ prop with execution_time := now0 + (gov.timelock_duration : Int) } : Proposal).executed
      = false ∧
    (∀ (now1 : Int) (slot1 : Nat), prop.end_slot < slot1 →
      now1 < now0 + (gov.timelock_duration : Int) →
      execute_proposal { prop with execution_time := now0 + (gov.timelock_duration : Int) }
          gov now1 slot1
        = .error .TimelockNotExpired) ∧
    (∀ (now2 : Int) (slot2 : Nat), prop.end_slot < slot2 →
      now0 + (gov.timelock_duration : Int) ≤ now2 →
      execute_proposal { prop with execution_time := now0 + (gov.timelock_duration : Int) }
          gov now2 slot2
        = .ok { prop with execution_time := now0 + (gov.timelock_duration : Int)
                          executed := true }) ∧
    (∀ (q : Proposal) (now3 : Int) (slot3 : Nat), q.executed = true →
      ∀ q2, execute_proposal q gov now3 slot3 ≠ .ok q2) := by
  have htlcast : u64AsI64 gov.timelock_duration = (gov.timelock_duration : Int) := by
    unfold u64AsI64
    rw [if_pos htl]
  have htlpos : (0 : Int) ≤ (gov.timelock_duration : Int) := Int.natCast_nonneg _
  have hne0 :
      ¬ (({ prop with execution_time := now0 + (gov.timelock_duration : Int) } :
          Proposal).execution_time = 0) := by
    show ¬ (now0 + (gov.timelock_duration : Int) = 0)
    omega
  refine ⟨?_, hexec, ?_, ?_, ?_⟩
  · rw [execute_proposal_gates_pass prop gov now0 slot0 hslot hexec hquorum hyes,
      if_pos harm, htlcast]
  · intro now1 slot1 h1 h2
    rw [execute_proposal_gates_pass
        { prop with execution_time := now0 + (gov.timelock_duration : Int) }
        gov now1 slot1 h1 hexec hquorum hyes,
      if_neg hne0, if_pos (show now1 <
        ({ prop with execution_time := now0 + (gov.timelock_duration : Int) } :
          Proposal).execution_time from h2)]
  · intro now2 slot2 h1 h2
    have hge : ¬ (now2 <
        ({ prop with execution_time := now0 + (gov.timelock_duration : Int) } :
          Proposal).execution_time) := by
      show ¬ (now2 < now0 + (gov.timelock_duration : Int))
      omega
    rw [execute_proposal_gates_pass
        { prop with execution_time := now0 + (gov.timelock_duration : Int) }
        gov now2 slot2 h1 hexec hquorum hyes,
      if_neg hne0, if_neg hge]
  · intro q now3 slot3 hq q2
    by_cases hc : q.end_slot < slot3
    · simp [execute_proposal, hc, hq]
    · simp [execute_proposal, hc]

/-- A concrete approved proposal, for the C3 witness: voting window
ended at slot 10, 60 yes / 10 no / 0 abstain, quorum 50 of supply 100. -/
def timelockProp : Proposal :=
  { proposal_type := ProposalType.EmergencyPause, yes_votes := 60, no_votes := 10
    abstain_votes := 0, start_slot := 0, end_slot := 10, executed := false
    execution_time := 0 }

/-- Governance configuration for the C3 witness: 50% quorum, supply 100,
timelock 100 time-units. -/
def timelockGov : GovernanceState :=
  { proposal_threshold := 1, voting_period := 10, quorum_percentage := 50
    timelock_duration := 100, proposal_count := 1, total_supply := 100 }

/-- Witness for C3: the arming call at time 1000, a failing call at
1099, and the executing call at 1100. -/
theorem C3_two_phase_timelock_witness :
    execute_proposal timelockProp timelockGov 1000 11
      = .ok { timelockProp with execution_time := 1100 } ∧
    execute_proposal { timelockProp with execution_time := 1100 } timelockGov 1099 11
      = .error .TimelockNotExpired ∧
    execute_proposal { timelockProp with execution_time := 1100 } timelockGov 1100 11
      = .ok { timelockProp with execution_time := 1100, executed := true } := by
  obtain ⟨h1, _, h3, h4, _⟩ :=
    C3_two_phase_timelock timelockProp timelockGov 1000 11 (by decide) rfl (by decide)
      (by decide) rfl (by decide) (by decide)
  refine ⟨?_, ?_, ?_⟩
  · simpa using h1
  · simpa using h3 1099 11 (by decide) (by decide)
  · simpa using h4 1100 11 (by decide) (by decide)

/-! ## Claim C10 — governance action replay -/

/-- Claim C10: `execute_governance_action` checks only
`proposal.executed` (its single `require!`), takes the proposal as a
read-only account (so no call mutates the proposal), and therefore an
executed `SlashPublisher` proposal can be re-applied: each call with
the publisher account supplied subtracts
`⌊staked_amount · percentage / 100⌋` from the *current* stake and
increments `slash_count` again.  (Hypotheses bound the stake by the
`u64` range, the percentage by 100, and the stake by the vault total so
the checked subtractions succeed.) -/
theorem C10_slash_replayable (prop : Proposal) (s : ActionState) (slot1 slot2 pct : Nat)
    (p : PublisherAccount)
    (hexec : prop.executed = true)
    (hty : prop.proposal_type = ProposalType.SlashPublisher pct)
    (hpub : s.publisher_account = some p)
    (hpct : pct ≤ 100)
    (hbound : p.staked_amount < 2 ^ 64)
    (hts : p.staked_amount ≤ s.total_staked) :
    (∀ (q : Proposal) (st : ActionState) (sl : Nat), q.executed = false →
      execute_governance_action q st sl = .error .ProposalNotApproved) ∧
    execute_governance_action prop s slot1
      = .ok { s with
          publisher_account := some
            { p with staked_amount := p.staked_amount - p.staked_amount * pct / 100
                     slash_count := p.slash_count + 1, last_slash_slot := slot1 }
          total_staked := s.total_staked - p.staked_amount * pct / 100 } ∧
    execute_governance_action prop
        { s with
          publisher_account := some
            { p with staked_amount := p.staked_amount - p.staked_amount * pct / 100
                     slash_count := p.slash_count + 1, last_slash_slot := slot1 }
          total_staked := s.total_staked - p.staked_amount * pct / 100 } slot2
      = .ok { s with
          publisher_account := some
            { p with
              staked_amount := (p.staked_amount - p.staked_amount * pct / 100)
                - (p.staked_amount - p.staked_amount * pct / 100) * pct / 100
              slash_count := p.slash_count + 2, last_slash_slot := slot2 }
          total_staked := (s.total_staked - p.staked_amount * pct / 100)
            - (p.staked_amount - p.staked_amount * pct / 100) * pct / 100 } := by
  have hdiv : ∀ n : Nat, n * pct / 100 ≤ n := by
    intro n
    calc n * pct / 100 ≤ n * 100 / 100 := Nat.div_le_div_right (Nat.mul_le_mul_left n hpct)
    _ = n := Nat.mul_div_cancel n (by norm_num)
  have hok : ∀ (q : PublisherAccount) (st : ActionState) (sl : Nat),
      st.publisher_account = some q → q.staked_amount < 2 ^ 64 →
      q.staked_amount ≤ st.total_staked →
      execute_governance_action prop st sl
        = .ok { st with
            publisher_account := some
              { q with staked_amount := q.staked_amount - q.staked_amount * pct / 100
                       slash_count := q.slash_count + 1, last_slash_slot := sl }
            total_staked := st.total_staked - q.staked_amount * pct / 100 } := by
    intro q st sl hq hqb hqt
    have hmod : q.staked_amount * pct / 100 % 2 ^ 64 = q.staked_amount * pct / 100 :=
      Nat.mod_eq_of_lt (lt_of_le_of_lt (hdiv q.staked_amount) hqb)
    simp only [execute_governance_action, hexec, hty, hq, slash_publisher, hmod]
    rw [if_neg (by simp)]
    rw [if_neg (by have := hdiv q.staked_amount; omega),
      if_neg (by have := hdiv q.staked_amount; omega)]
  refine ⟨?_, hok p s slot1 hpub hbound hts, ?_⟩
  · intro q st sl hq
    simp only [execute_governance_action, hq]
    rw [if_pos (by simp)]
  · have h1 := hdiv p.staked_amount
    refine hok
      { p with staked_amount := p.staked_amount - p.staked_amount * pct / 100
               slash_count := p.slash_count + 1, last_slash_slot := slot1 }
      { s with
        publisher_account := some
          { p with staked_amount := p.staked_amount - p.staked_amount * pct / 100
                   slash_count := p.slash_count + 1, last_slash_slot := slot1 }
        total_staked := s.total_staked - p.staked_amount * pct / 100 }
      slot2 rfl ?_ ?_
    · show p.staked_amount - p.staked_amount * pct / 100 < 2 ^ 64
      omega
    · show p.staked_amount - p.staked_amount * pct / 100
        ≤ s.total_staked - p.staked_amount * pct / 100
      omega

/-- An executed 10%-slash proposal, for the C10 witness. -/
def slashProp : Proposal :=
  { proposal_type := ProposalType.SlashPublisher 10, yes_votes := 60, no_votes := 10
    abstain_votes := 0, start_slot := 0, end_slot := 10, executed := true
    execution_time := 50 }

/-- State with a publisher staked at 1000 (vault total 1000), for the
C10 witness. -/
def slashState : ActionState :=
  { paused := false, reward_rate := 1, total_staked := 1000, gov := timelockGov
    feed_min_publishers := none
    publisher_account := some
      { staked_amount := 1000, reputation := 100, slash_count := 0, last_slash_slot := 0
        unbonding_amount := 0, unbonding_start := 0 } }

/-- Witness for C10: slashing 10% of 1000 gives 900, and replaying the
same executed proposal slashes again to 810 with slash_count 2. -/
theorem C10_slash_replayable_witness :
    execute_governance_action slashProp slashState 7
      = .ok { slashState with
          publisher_account := some
            { staked_amount := 900, reputation := 100, slash_count := 1, last_slash_slot := 7
              unbonding_amount := 0, unbonding_start := 0 }
          total_staked := 900 } ∧
    execute_governance_action slashProp
        { slashState with
          publisher_account := some
            { staked_amount := 900, reputation := 100, slash_count := 1, last_slash_slot := 7
              unbonding_amount := 0, unbonding_start := 0 }
          total_staked := 900 } 8
      = .ok { slashState with
          publisher_account := some
            { staked_amount := 810, reputation := 100, slash_count := 2, last_slash_slot := 8
              unbonding_amount := 0, unbonding_start := 0 }
          total_staked := 810 } := by
  obtain ⟨_, h2, h3⟩ :=
    C10_slash_replayable slashProp slashState 7 8 10
      { staked_amount := 1000, reputation := 100, slash_count := 0, last_slash_slot := 0
        unbonding_amount := 0, unbonding_start := 0 }
      rfl rfl rfl (by decide) (by decide) (by decide)
  exact ⟨by simpa using h2, by simpa using h3⟩

/-! ## Claim C2 — vault total invariant -/

theorem sum_map_set_of_get {α : Type} (f : α → Nat) :
    ∀ (l : List α) (i : Nat) (p x : α), l.get? i = some p →
      ((l.set i x).map f).sum + f p = (l.map f).sum + f x := by
  intro l
  induction l with
  | nil => intro i p x h; simp at h
  | cons a t ih =>
    intro i p x h
    cases i with
    | zero =>
      simp only [List.get?_cons_zero, Option.some.injEq] at h
      subst h
      simp [List.set]
      omega
    | succ n =>
      simp only [List.get?_cons_succ] at h
      have hs := ih n p x h
      simp only [List.set, List.map_cons, List.sum_cons]
      omega

theorem add_publisher_sums {s s' : LedgerState} {stake : Nat}
    (h : add_publisher s stake = .ok s') :
    sumStakedUnbonding s' = sumStakedUnbonding s + stake ∧
    s'.total_staked = s.total_staked + stake := by
  simp only [add_publisher] at h
  split at h
  · simp at h
  · simp only [Except.ok.injEq] at h
    subst h
    constructor
    · simp [sumStakedUnbonding]
    · rfl

theorem stake_tokens_sums {s s' : LedgerState} {i amount : Nat}
    (h : stake_tokens s i amount = .ok s') :
    sumStakedUnbonding s' = sumStakedUnbonding s + amount ∧
    s'.total_staked = s.total_staked + amount := by
  simp only [stake_tokens] at h
  split at h
  · simp at h
  · cases hg : s.publishers.get? i with
    | none => rw [hg] at h; simp at h
    | some p =>
      rw [hg] at h
      simp only [Except.ok.injEq] at h
      subst h
      have hs := sum_map_set_of_get
        (fun q => q.staked_amount + q.unbonding_amount) s.publishers i p
        { p with staked_amount := p.staked_amount + amount } hg
      constructor
      · simp only [sumStakedUnbonding] at hs ⊢
        omega
      · rfl

theorem unstake_step_sums {s s' : LedgerState} {i amount : Nat} {now : Int}
    (h : unstake_step s i amount now = .ok s') :
    ∃ p, s.publishers.get? i = some p ∧
      sumStakedUnbonding s' + p.unbonding_amount = sumStakedUnbonding s ∧
      s'.total_staked = s.total_staked := by
  simp only [unstake_step] at h
  cases hg : s.publishers.get? i with
  | none => rw [hg] at h; simp at h
  | some p =>
    rw [hg] at h
    simp only [unstake_tokens] at h
    by_cases h1 : p.staked_amount < amount
    · rw [if_pos h1] at h; simp at h
    · rw [if_neg h1] at h
      by_cases h2 : p.staked_amount - amount < MIN_STAKE_AMOUNT
      · rw [if_pos h2] at h; simp at h
      · rw [if_neg h2] at h
        simp only [Except.ok.injEq] at h
        subst h
        have hs := sum_map_set_of_get
          (fun q => q.staked_amount + q.unbonding_amount) s.publishers i p
          { p with unbonding_amount := amount, unbonding_start := now
                   staked_amount := p.staked_amount - amount } hg
        refine ⟨p, rfl, ?_, rfl⟩
        simp only [sumStakedUnbonding] at hs ⊢
        omega

theorem withdraw_step_sums {s s' : LedgerState} {i : Nat} {now : Int}
    (h : withdraw_step s i now = .ok s') :
    ∃ a, 0 < a ∧ a ≤ s.total_staked ∧
      sumStakedUnbonding s' + a = sumStakedUnbonding s ∧
      s'.total_staked + a = s.total_staked := by
  simp only [withdraw_step] at h
  cases hg : s.publishers.get? i with
  | none => rw [hg] at h; simp at h
  | some p =>
    rw [hg] at h
    simp only [withdraw_unbonded] at h
    by_cases h1 : now - p.unbonding_start < UNBONDING_PERIOD
    · rw [if_pos h1] at h; simp at h
    · rw [if_neg h1] at h
      by_cases h2 : p.unbonding_amount = 0
      · rw [if_pos h2] at h; simp at h
      · rw [if_neg h2] at h
        by_cases h3 : s.total_staked < p.unbonding_amount
        · rw [if_pos h3] at h; simp at h
        · rw [if_neg h3] at h
          simp only [Except.ok.injEq] at h
          subst h
          have hs := sum_map_set_of_get
            (fun q => q.staked_amount + q.unbonding_amount) s.publishers i p
            { p with unbonding_amount := 0, unbonding_start := 0 } hg
          refine ⟨p.unbonding_amount, by omega, by omega, ?_, by simp; omega⟩
          simp only [sumStakedUnbonding] at hs ⊢
          omega

theorem slash_step_sums {s s' : LedgerState} {i pct slot : Nat}
    (h : slash_step s i pct slot = .ok s') :
    ∃ a, a ≤ s.total_staked ∧
      sumStakedUnbonding s' + a = sumStakedUnbonding s ∧
      s'.total_staked + a = s.total_staked := by
  simp only [slash_step] at h
  cases hg : s.publishers.get? i with
  | none => rw [hg] at h; simp at h
  | some p =>
    rw [hg] at h
    simp only [slash_publisher] at h
    by_cases h1 : p.staked_amount < p.staked_amount * pct / 100 % 2 ^ 64
    · rw [if_pos h1] at h; simp at h
    · rw [if_neg h1] at h
      by_cases h2 : s.total_staked < p.staked_amount * pct / 100 % 2 ^ 64
      · rw [if_pos h2] at h; simp at h
      · rw [if_neg h2] at h
        simp only [Except.ok.injEq] at h
        subst h
        have hs := sum_map_set_of_get
          (fun q => q.staked_amount + q.unbonding_amount) s.publishers i p
          { p with staked_amount := p.staked_amount - p.staked_amount * pct / 100 % 2 ^ 64
                   slash_count := p.slash_count + 1, last_slash_slot := slot } hg
        refine ⟨p.staked_amount * pct / 100 % 2 ^ 64, by omega, ?_, by simp; omega⟩
        simp only [sumStakedUnbonding] at hs ⊢
        omega

/-- Claim C2 (amended): the vault total dominates, but does not in
general equal, the sum of the publishers' staked amounts.  After
`unstake_tokens` the unstaked amount sits in the pending-unbonding
balance while `total_staked` is unchanged, so the invariant that holds
at every reachable state is `sumStakedUnbonding s ≤ s.total_staked`
(sum of staked PLUS pending unbonding amounts), with equality at every
state reachable without overwriting a nonzero pending unbonding amount
(a repeated `unstake_tokens` orphans the previous pending amount inside
`total_staked`, making the inequality strict forever after). -/
theorem C2_vault_total_invariant :
    (∀ s, Reachable s → sumStakedUnbonding s ≤ s.total_staked) ∧
    (∀ s, ReachableD s → s.total_staked = sumStakedUnbonding s) := by
  constructor
  · intro s h
    induction h with
    | init => simp [sumStakedUnbonding]
    | add hr hop ih =>
      obtain ⟨h1, h2⟩ := add_publisher_sums hop
      omega
    | stake hr hop ih =>
      obtain ⟨h1, h2⟩ := stake_tokens_sums hop
      omega
    | unstake hr hop ih =>
      obtain ⟨p, hg, h1, h2⟩ := unstake_step_sums hop
      omega
    | withdraw hr hop ih =>
      obtain ⟨a, h1, h2, h3, h4⟩ := withdraw_step_sums hop
      omega
    | slash hr hop ih =>
      obtain ⟨a, h1, h2, h3⟩ := slash_step_sums hop
      omega
  · intro s h
    induction h with
    | init => simp [sumStakedUnbonding]
    | add hr hop ih =>
      obtain ⟨h1, h2⟩ := add_publisher_sums hop
      omega
    | stake hr hop ih =>
      obtain ⟨h1, h2⟩ := stake_tokens_sums hop
      omega
    | unstake hr hz hop ih =>
      obtain ⟨p, hg, h1, h2⟩ := unstake_step_sums hop
      have hzp := hz p hg
      omega
    | withdraw hr hop ih =>
      obtain ⟨a, h1, h2, h3, h4⟩ := withdraw_step_sums hop
      omega
    | slash hr hop ih =>
      obtain ⟨a, h1, h2, h3⟩ := slash_step_sums hop
      omega

/-- State after registering one publisher with stake 20,000,000,000. -/
def oneStakedLedger : LedgerState :=
  { publishers := [{ staked_amount := 20000000000, reputation := 100, slash_count := 0
                     last_slash_slot := 0, unbonding_amount := 0, unbonding_start := 0 }]
    total_staked := 20000000000 }

/-- State after that publisher then unstakes 5,000,000,000. -/
def oneUnbondingLedger : LedgerState :=
  { publishers := [{ staked_amount := 15000000000, reputation := 100, slash_count := 0
                     last_slash_slot := 0, unbonding_amount := 5000000000
                     unbonding_start := 0 }]
    total_staked := 20000000000 }

/-- Claim C2, counterexample: after `add_publisher` with stake 2·10¹⁰
followed by `unstake_tokens` of 5·10⁹, the state is reachable but
`total_staked` (still 2·10¹⁰) no longer equals the sum of staked
amounts (1.5·10¹⁰): `unstake_tokens` moves stake into the pending
unbonding balance without touching the vault total. -/
theorem C2_sum_staked_counterexample :
    Reachable oneUnbondingLedger ∧
    oneUnbondingLedger.total_staked ≠ sumStaked oneUnbondingLedger := by
  have h1 : add_publisher { publishers := [], total_staked := 0 } 20000000000
      = .ok oneStakedLedger := by rfl
  have h2 : unstake_step oneStakedLedger 0 5000000000 0 = .ok oneUnbondingLedger := by
    rfl
  exact ⟨Reachable.unstake (Reachable.add Reachable.init h1) h2, by decide⟩

/-- Witness for C2 at the concrete two-step trace (which also respects
the no-overwrite discipline, so both conjuncts apply). -/
theorem C2_vault_total_invariant_witness :
    sumStakedUnbonding oneUnbondingLedger ≤ oneUnbondingLedger.total_staked ∧
    oneUnbondingLedger.total_staked = sumStakedUnbonding oneUnbondingLedger := by
  have h1 : add_publisher { publishers := [], total_staked := 0 } 20000000000
      = .ok oneStakedLedger := by rfl
  have h2 : unstake_step oneStakedLedger 0 5000000000 0 = .ok oneUnbondingLedger := by
    rfl
  have hz : ∀ p, oneStakedLedger.publishers.get? 0 = some p → p.unbonding_amount = 0 := by
    intro p hp
    simp [oneStakedLedger] at hp
    rw [← hp]
  exact ⟨C2_vault_total_invariant.1 oneUnbondingLedger
      (Reachable.unstake (Reachable.add Reachable.init h1) h2),
    C2_vault_total_invariant.2 oneUnbondingLedger
      (ReachableD.unstake (ReachableD.add ReachableD.init h1) hz h2)⟩

end SovFi
